import Mathlib

/-!
# Verification of the `simple_nium_time_protocol` NTP codec

Shallow embedding of `src/ntp_packet.rs` (and the relevant call sites in
`src/main.rs`): the wire-level decoder `NtpMessage::try_from`, the encoder
`NtpMessage::to_bytes`, the timestamp codec `NtpTimestamp::{try_from,to_bytes}`
together with the helper `pad_int`, and the response builder
`NtpMessage::new_server_response`.

Modelling conventions:
* Rust machine integers become `Nat`/`Int` with explicit bounds or wrapping
  (`% 2^w`) where the Rust semantics wraps (`as u8`, `as u32` casts).
* The byte buffer (`BytesMut`) becomes a `List Nat`; the Rust code only ever
  splits fixed-size prefixes at fixed offsets, so reading is modelled
  positionally with `byteAt`/`listSlice`.
* `chrono::NaiveDateTime` is modelled by its unix-timestamp decomposition:
  the pair of `timestamp()` (seconds, `Int`) and `timestamp_subsec_nanos()`
  (`Nat`).  `NaiveDateTime::from_timestamp_opt` checks its documented bounds.
* Fallible Rust code (`TryFrom`, `bail!`) becomes `Except`.
-/

set_option autoImplicit false
set_option maxRecDepth 8192

namespace SNTP

/-! ## Byte-level helpers -/

/-- Read the byte at position `i` of a buffer (positional model of
`BytesMut::split_to` + `get_u8`; the call sites guarantee `i` is in bounds). -/
def byteAt (l : List Nat) (i : Nat) : Nat := l.getD i 0

/-- The sub-buffer of length `len` starting at `start` (positional model of
`BytesMut::split_to`). -/
def listSlice (l : List Nat) (start len : Nat) : List Nat :=
  (l.drop start).take len

/-- Big-endian reading of four bytes as an unsigned 32-bit value
(`Buf::get_u32`). -/
def getU32 (b0 b1 b2 b3 : Nat) : Nat :=
  ((b0 * 256 + b1) * 256 + b2) * 256 + b3

/-- Big-endian byte serialisation of a `u32` (`u32::to_be_bytes`). -/
def u32BE (n : Nat) : List Nat :=
  [n / 16777216 % 256, n / 65536 % 256, n / 256 % 256, n % 256]

/-- Reinterpret a byte as a signed 8-bit value (`Buf::get_i8`). -/
def i8OfByte (b : Nat) : Int :=
  if b < 128 then (b : Int) else (b : Int) - 256

/-- Reinterpret an unsigned 32-bit value as a signed one (`Buf::get_i32`
reads the same big-endian bytes as `get_u32` and reinterprets them). -/
def i32OfU32 (n : Nat) : Int :=
  if n < 2147483648 then (n : Int) else (n : Int) - 4294967296

/-- Rust's `as u8` cast from a signed value: two's-complement truncation. -/
def u8OfInt (i : Int) : Nat := (i % 256).toNat

/-- Rust's `as u32` cast from a signed value: two's-complement truncation. -/
def u32OfInt (i : Int) : Nat := (i % 4294967296).toNat

/-! ## `pad_int` (the fraction → "nanoseconds" conversion of the source) -/

/-- Fuel-driven digit counter (structural recursion so that the kernel can
evaluate it; the fuel is never exhausted when it starts at `n`, see
`digitLen_eq`). -/
def digitLenAux : Nat → Nat → Nat
  | 0, _ => 1
  | fuel + 1, n => if n < 10 then 1 else digitLenAux fuel (n / 10) + 1

/-- Number of decimal digits, i.e. `integer.to_string().len()` in the source
for a nonnegative integer (`digitLen 0 = 1`, matching `"0".len()`). -/
def digitLen (n : Nat) : Nat := digitLenAux n n

theorem digitLenAux_congr : ∀ f f' n, n ≤ f → n ≤ f' → digitLenAux f n = digitLenAux f' n := by
  intro f
  induction f with
  | zero =>
    intro f' n h1 _
    cases f' with
    | zero => rfl
    | succ f' =>
      have : n = 0 := by omega
      subst this
      simp [digitLenAux]
  | succ f ih =>
    intro f' n h1 h2
    cases f' with
    | zero =>
      have : n = 0 := by omega
      subst this
      simp [digitLenAux]
    | succ f' =>
      simp only [digitLenAux]
      split
      · rfl
      · rename_i hn
        have hlt : n / 10 < n := Nat.div_lt_self (by omega) (by omega)
        rw [ih f' (n / 10) (by omega) (by omega)]

/-- The defining recurrence of the digit counter. -/
theorem digitLen_eq (n : Nat) :
    digitLen n = if n < 10 then 1 else digitLen (n / 10) + 1 := by
  unfold digitLen
  cases n with
  | zero => simp [digitLenAux]
  | succ m =>
    simp only [digitLenAux]
    split
    · rfl
    · rename_i hn
      have hlt : (m + 1) / 10 < m + 1 := Nat.div_lt_self (by omega) (by omega)
      rw [digitLenAux_congr m ((m + 1) / 10) ((m + 1) / 10) (by omega) (by omega)]

/-- Embedding of `pad_int` from `src/ntp_packet.rs` (lines 226–233):

```rust
fn pad_int(mut integer: isize, expected_digits: i32) -> isize {
    let digit_length = integer.to_string().len() as i32;
    let shifter = 10_f64.powi(expected_digits - digit_length);
    integer = ((integer as f64) * shifter) as isize;
    integer
}
```

The only call site is `pad_int(fraction as isize, 9)` with
`fraction : u32`, so `integer` is a nonnegative value below `2^32` and has at
most 10 decimal digits.  The `f64` computation is exact in that range:
* when `digit_length ≤ 9`, both `integer` (< 2^32) and
  `10.0.powi(9 - digit_length)` (≤ 10^8) are exactly representable and their
  true product is an integer below `10^9 < 2^53`, hence the rounded product and
  the `as isize` truncation return exactly `integer * 10^(9 - digit_length)`;
* when `digit_length = 10` the shifter is the `f64` nearest `1/10` and the
  computed product differs from the rational `integer / 10` by less than
  `2.5e-8`, which is under half an ulp at that magnitude (ulp `≈ 6e-8`), so
  the rounded product truncates to `integer / 10` (integer division). -/
def pad_int (integer : Nat) (expected_digits : Nat) : Nat :=
  if digitLen integer ≤ expected_digits then
    integer * 10 ^ (expected_digits - digitLen integer)
  else
    integer / 10 ^ (digitLen integer - expected_digits)

/-- Modelled from the spec (§4.2), for comparison with `pad_int`: the exact
fixed-point scaling `nanoseconds = round(fraction * 1_000_000_000 / 2^32)`. -/
def exactFractionToNanos (fraction : Nat) : Nat :=
  (fraction * 1000000000 + 2147483648) / 4294967296

/-! ## Protocol enumerations -/

/-- `LeapIndicator` (bits 7–6 of the flags byte). -/
inductive LeapIndicator where
  | NoWarning
  | LastMinuteHas61Seconds
  | LastMinuteHas59Seconds
  | AlarmConditionClockNotSynchronised
deriving DecidableEq

/-- `LeapIndicator::from_repr` (strum `FromRepr` over discriminants 0–3). -/
def LeapIndicator.fromRepr : Nat → Option LeapIndicator
  | 0 => some .NoWarning
  | 1 => some .LastMinuteHas61Seconds
  | 2 => some .LastMinuteHas59Seconds
  | 3 => some .AlarmConditionClockNotSynchronised
  | _ => none

/-- `li as u8` (the declared discriminant). -/
def LeapIndicator.toRepr : LeapIndicator → Nat
  | .NoWarning => 0
  | .LastMinuteHas61Seconds => 1
  | .LastMinuteHas59Seconds => 2
  | .AlarmConditionClockNotSynchronised => 3

/-- `VersionNumber` (bits 5–3 of the flags byte), discriminants 1–4. -/
inductive VersionNumber where
  | One
  | Two
  | Three
  | Four
deriving DecidableEq

/-- `VersionNumber::from_repr` (valid range 1–4; 0 and 5–7 have no variant). -/
def VersionNumber.fromRepr : Nat → Option VersionNumber
  | 1 => some .One
  | 2 => some .Two
  | 3 => some .Three
  | 4 => some .Four
  | _ => none

/-- `vn as u8`. -/
def VersionNumber.toRepr : VersionNumber → Nat
  | .One => 1
  | .Two => 2
  | .Three => 3
  | .Four => 4

/-- `Mode` (bits 2–0 of the flags byte), discriminants 0–7 (total). -/
inductive Mode where
  | Reserved
  | SymmetricActive
  | SymmetricPassive
  | Client
  | Server
  | Broadcast
  | ReservedForNtpControlMessage
  | ReservedForPrivateUse
deriving DecidableEq

/-- `Mode::from_repr`. -/
def Mode.fromRepr : Nat → Option Mode
  | 0 => some .Reserved
  | 1 => some .SymmetricActive
  | 2 => some .SymmetricPassive
  | 3 => some .Client
  | 4 => some .Server
  | 5 => some .Broadcast
  | 6 => some .ReservedForNtpControlMessage
  | 7 => some .ReservedForPrivateUse
  | _ => none

/-- `mode as u8`. -/
def Mode.toRepr : Mode → Nat
  | .Reserved => 0
  | .SymmetricActive => 1
  | .SymmetricPassive => 2
  | .Client => 3
  | .Server => 4
  | .Broadcast => 5
  | .ReservedForNtpControlMessage => 6
  | .ReservedForPrivateUse => 7

/-- `Stratum` classification (declared discriminants 0, 1, 2, 16). -/
inductive Stratum where
  | KissODeathMessage
  | PrimaryReference
  | SecondaryReference
  | Reserved
deriving DecidableEq

/-- `impl From<u8> for Stratum`: the total classifier
0 → KoD, 1 → primary, 2..=15 → secondary, _ → reserved. -/
def Stratum.fromByte (value : Nat) : Stratum :=
  if value = 0 then .KissODeathMessage
  else if value = 1 then .PrimaryReference
  else if value ≤ 15 then .SecondaryReference
  else .Reserved

/-- `self.stratum as u8`: the declared discriminant of the variant. -/
def Stratum.toByte : Stratum → Nat
  | .KissODeathMessage => 0
  | .PrimaryReference => 1
  | .SecondaryReference => 2
  | .Reserved => 16

/-! ## ASCII vocabularies

Rust compares the 4 reference-identifier bytes, decoded by `str::from_utf8`,
against the variant names (strum `EnumString`/`AsRefStr`).  Strings are
modelled as lists of unicode scalar values (`List Nat`). -/

/-- The scalar values of an ASCII string literal. -/
def ascii (s : String) : List Nat := s.data.map Char.toNat

/-- `ExternalReferenceSource` (primary reference-clock vocabulary). -/
inductive ExternalReferenceSource where
  | LOCL | CESM | RBDM | PPS | IRIG | ACTS | USNO | PTB | TDF
  | DCF | MSF | WWV | WWVB | WWVH | CHU | LORC | OMEG | GPS
deriving DecidableEq

/-- strum `AsRefStr`: the variant name. -/
def ExternalReferenceSource.asRefStr : ExternalReferenceSource → List Nat
  | .LOCL => ascii ("LOCL")
  | .CESM => ascii ("CESM")
  | .RBDM => ascii ("RBDM")
  | .PPS => ascii ("PPS")
  | .IRIG => ascii ("IRIG")
  | .ACTS => ascii ("ACTS")
  | .USNO => ascii ("USNO")
  | .PTB => ascii ("PTB")
  | .TDF => ascii ("TDF")
  | .DCF => ascii ("DCF")
  | .MSF => ascii ("MSF")
  | .WWV => ascii ("WWV")
  | .WWVB => ascii ("WWVB")
  | .WWVH => ascii ("WWVH")
  | .CHU => ascii ("CHU")
  | .LORC => ascii ("LORC")
  | .OMEG => ascii ("OMEG")
  | .GPS => ascii ("GPS")

/-- strum `EnumString` `from_str`: exact match against a variant name. -/
def ExternalReferenceSource.fromStr (s : List Nat) : Option ExternalReferenceSource :=
  if s = ascii ("LOCL") then some .LOCL
  else if s = ascii ("CESM") then some .CESM
  else if s = ascii ("RBDM") then some .RBDM
  else if s = ascii ("PPS") then some .PPS
  else if s = ascii ("IRIG") then some .IRIG
  else if s = ascii ("ACTS") then some .ACTS
  else if s = ascii ("USNO") then some .USNO
  else if s = ascii ("PTB") then some .PTB
  else if s = ascii ("TDF") then some .TDF
  else if s = ascii ("DCF") then some .DCF
  else if s = ascii ("MSF") then some .MSF
  else if s = ascii ("WWV") then some .WWV
  else if s = ascii ("WWVB") then some .WWVB
  else if s = ascii ("WWVH") then some .WWVH
  else if s = ascii ("CHU") then some .CHU
  else if s = ascii ("LORC") then some .LORC
  else if s = ascii ("OMEG") then some .OMEG
  else if s = ascii ("GPS") then some .GPS
  else none

/-- `KissODeathIdentifier` (stratum-0 Kiss-of-Death vocabulary). -/
inductive KissODeathIdentifier where
  | ACST | AUTH | AUTO | BCST | CRYP | DENY | DROP
  | RSTR | INIT | MCST | NKEY | RATE | RMOT | STEP
deriving DecidableEq

/-- strum `AsRefStr`: the variant name. -/
def KissODeathIdentifier.asRefStr : KissODeathIdentifier → List Nat
  | .ACST => ascii ("ACST")
  | .AUTH => ascii ("AUTH")
  | .AUTO => ascii ("AUTO")
  | .BCST => ascii ("BCST")
  | .CRYP => ascii ("CRYP")
  | .DENY => ascii ("DENY")
  | .DROP => ascii ("DROP")
  | .RSTR => ascii ("RSTR")
  | .INIT => ascii ("INIT")
  | .MCST => ascii ("MCST")
  | .NKEY => ascii ("NKEY")
  | .RATE => ascii ("RATE")
  | .RMOT => ascii ("RMOT")
  | .STEP => ascii ("STEP")

/-- strum `EnumString` `from_str`: exact match against a variant name. -/
def KissODeathIdentifier.fromStr (s : List Nat) : Option KissODeathIdentifier :=
  if s = ascii ("ACST") then some .ACST
  else if s = ascii ("AUTH") then some .AUTH
  else if s = ascii ("AUTO") then some .AUTO
  else if s = ascii ("BCST") then some .BCST
  else if s = ascii ("CRYP") then some .CRYP
  else if s = ascii ("DENY") then some .DENY
  else if s = ascii ("DROP") then some .DROP
  else if s = ascii ("RSTR") then some .RSTR
  else if s = ascii ("INIT") then some .INIT
  else if s = ascii ("MCST") then some .MCST
  else if s = ascii ("NKEY") then some .NKEY
  else if s = ascii ("RATE") then some .RATE
  else if s = ascii ("RMOT") then some .RMOT
  else if s = ascii ("STEP") then some .STEP
  else none

/-! ## UTF-8 validation (`str::from_utf8`)

`str::from_utf8` accepts exactly the well-formed UTF-8 byte sequences; the
decoded `&str` is then compared against the ASCII vocabulary names.  The
decoder below implements the standard UTF-8 grammar (continuation ranges,
overlong/ surrogate/ out-of-range exclusions) and yields the scalar values. -/

/-- Decode one UTF-8 encoded scalar value from the front of a byte list,
returning the scalar and the remaining bytes, or `none` if the prefix is not
well-formed UTF-8. -/
def decodeUtf8Char : List Nat → Option (Nat × List Nat)
  | [] => none
  | b0 :: rest =>
    if b0 < 0x80 then some (b0, rest)
    else if b0 < 0xC2 then none
    else if b0 < 0xE0 then
      match rest with
      | b1 :: rest2 =>
        if 0x80 ≤ b1 ∧ b1 < 0xC0 then
          some ((b0 - 0xC0) * 64 + (b1 - 0x80), rest2)
        else none
      | [] => none
    else if b0 < 0xF0 then
      match rest with
      | b1 :: b2 :: rest2 =>
        if (if b0 = 0xE0 then 0xA0 ≤ b1 ∧ b1 < 0xC0
            else if b0 = 0xED then 0x80 ≤ b1 ∧ b1 < 0xA0
            else 0x80 ≤ b1 ∧ b1 < 0xC0) ∧ 0x80 ≤ b2 ∧ b2 < 0xC0 then
          some ((b0 - 0xE0) * 4096 + (b1 - 0x80) * 64 + (b2 - 0x80), rest2)
        else none
      | _ => none
    else if b0 < 0xF5 then
      match rest with
      | b1 :: b2 :: b3 :: rest2 =>
        if (if b0 = 0xF0 then 0x90 ≤ b1 ∧ b1 < 0xC0
            else if b0 = 0xF4 then 0x80 ≤ b1 ∧ b1 < 0x90
            else 0x80 ≤ b1 ∧ b1 < 0xC0) ∧ 0x80 ≤ b2 ∧ b2 < 0xC0 ∧
            0x80 ≤ b3 ∧ b3 < 0xC0 then
          some ((b0 - 0xF0) * 262144 + (b1 - 0x80) * 4096 +
                (b2 - 0x80) * 64 + (b3 - 0x80), rest2)
        else none
      | _ => none
    else none

theorem decodeUtf8Char_length {l : List Nat} {c : Nat} {rest : List Nat}
    (h : decodeUtf8Char l = some (c, rest)) : rest.length < l.length := by
  cases l with
  | nil => simp [decodeUtf8Char] at h
  | cons b0 t =>
    simp only [decodeUtf8Char] at h
    repeat' split at h
    all_goals simp at h
    all_goals (obtain ⟨h1, h2⟩ := h; subst h2; simp only [List.length_cons]; omega)

/-- Fuel-driven UTF-8 validation loop (structural recursion so that the kernel
can evaluate it; `decodeUtf8Char` consumes at least one byte per step, so fuel
`l.length` is never exhausted). -/
def utf8DecodeAux : Nat → List Nat → Option (List Nat)
  | _, [] => some []
  | 0, _ :: _ => none
  | fuel + 1, l =>
    match decodeUtf8Char l with
    | none => none
    | some (c, rest) =>
      match utf8DecodeAux fuel rest with
      | some cs => some (c :: cs)
      | none => none

/-- Full UTF-8 validation: the scalar values of a byte list, or `none` if it is
not well-formed (the success / failure behaviour of `str::from_utf8`). -/
def utf8Decode (l : List Nat) : Option (List Nat) :=
  utf8DecodeAux l.length l

/-- Standard UTF-8 encoding of one scalar value (proof device used to reason
about which byte lists decode to a given vocabulary name). -/
def utf8EncodeChar (c : Nat) : List Nat :=
  if c < 0x80 then [c]
  else if c < 0x800 then [0xC0 + c / 64, 0x80 + c % 64]
  else if c < 0x10000 then [0xE0 + c / 4096, 0x80 + c / 64 % 64, 0x80 + c % 64]
  else [0xF0 + c / 262144, 0x80 + c / 4096 % 64, 0x80 + c / 64 % 64, 0x80 + c % 64]

/-- UTF-8 encoding of a scalar-value string. -/
def utf8Encode : List Nat → List Nat
  | [] => []
  | c :: cs => utf8EncodeChar c ++ utf8Encode cs

/-! ## Reference identifier -/

/-- `ReferenceIdentifier`.  The Rust payloads `Ipv4Addr`/`u32` are modelled as
`Nat` values below `2^32` (an `Ipv4Addr` by its four octets read big-endian,
which is exactly what `octets()` serialises). -/
inductive ReferenceIdentifier where
  | KissODeath (kod : KissODeathIdentifier)
  | Primary (source : Option ExternalReferenceSource)
  | IPv4Secondary (ip : Nat)
  | IPv6AndOSISecondary (v : Nat)
  | UnknownIpVersion (v : Nat)
  | ReservedStratum (v : Nat)
deriving DecidableEq

/-! ## Timestamps -/

/-- Model of `chrono::NaiveDateTime`: the unix timestamp decomposition.
`secs` is `timestamp()` and `nsecs` is `timestamp_subsec_nanos()`. -/
structure NaiveDateTime where
  secs : Int
  nsecs : Nat
deriving DecidableEq

/-- `NaiveDateTime::from_timestamp_opt(secs, nsecs)`: `none` iff the
nanosecond argument is `≥ 2_000_000_000` or the second count falls outside the
representable calendar range (chrono years `-262144..=262143`, i.e. timestamps
`-8334632851200..=8210298412799`; the codec only ever passes seconds within
`±2^32` of the epoch, far inside this range). -/
def NaiveDateTime.fromTimestampOpt (secs : Int) (nsecs : Nat) : Option NaiveDateTime :=
  if nsecs ≥ 2000000000 then none
  else if secs < -8334632851200 then none
  else if secs > 8210298412799 then none
  else some ⟨secs, nsecs⟩

/-- `NtpTimestamp` (a newtype over `NaiveDateTime`). -/
structure NtpTimestamp where
  dt : NaiveDateTime
deriving DecidableEq

/-- `NtpTimestampError`. -/
inductive NtpTimestampError where
  | Zero
  | Invalid
deriving DecidableEq

/-- Embedding of `impl TryFrom<&mut BytesMut> for NtpTimestamp` (lines
129–163): read 4 bytes big-endian as `seconds`, 4 bytes big-endian as
`fraction`, convert the fraction with `pad_int(fraction, 9)`, reject the
all-zero sentinel with `Zero`, subtract the 1900→1970 epoch offset and build
the `NaiveDateTime` (failing with `Invalid` if out of range). -/
def NtpTimestamp.try_from (value : List Nat) : Except NtpTimestampError NtpTimestamp :=
  let seconds : Int :=
    (getU32 (byteAt value 0) (byteAt value 1) (byteAt value 2) (byteAt value 3) : Nat)
  let fraction : Nat :=
    getU32 (byteAt value 4) (byteAt value 5) (byteAt value 6) (byteAt value 7)
  let nano_seconds := pad_int fraction 9
  if seconds = 0 ∧ nano_seconds = 0 then .error .Zero
  else
    let seconds_unix_format := seconds - 2208988800
    match NaiveDateTime.fromTimestampOpt seconds_unix_format nano_seconds with
    | some ts => .ok ⟨ts⟩
    | none => .error .Invalid

/-- Embedding of `NtpTimestamp::to_bytes` (lines 165–191): 4 big-endian bytes
of `(timestamp() + 2208988800) as u32` followed by 4 big-endian bytes of
`timestamp_subsec_nanos()`. -/
def NtpTimestamp.to_bytes (t : NtpTimestamp) : List Nat :=
  u32BE (u32OfInt (t.dt.secs + 2208988800)) ++ u32BE t.dt.nsecs

/-! ## Messages -/

/-- `NtpMessage`. -/
structure NtpMessage where
  li : LeapIndicator
  vn : VersionNumber
  mode : Mode
  stratum : Stratum
  poll_interval : Nat
  precision : Int
  root_delay : Int
  root_dispersion : Nat
  reference_identifier : Option ReferenceIdentifier
  reference_timestamp : Option NtpTimestamp
  originate_timestamp : Option NtpTimestamp
  receive_timestamp : Option NtpTimestamp
  transmit_timestamp : NtpTimestamp
deriving DecidableEq

/-- `NtpServerResponse`. -/
structure NtpServerResponse where
  leap_indicator : LeapIndicator
  version_number : VersionNumber
  stratum : Stratum
  poll_interval : Nat
  precision : Int
  root_delay : Int
  root_dispersion : Nat
  reference_identifier : ReferenceIdentifier
  reference_timestamp : NtpTimestamp
  originate_timestamp : Option NtpTimestamp
  receive_timestamp : NtpTimestamp
  transmit_timestamp : Option NtpTimestamp
deriving DecidableEq

/-- Decode errors of `NtpMessage::try_from`.  The Rust code uses
`anyhow`/`bail!` with fixed messages (plus the propagated `str::from_utf8`
error); each distinct failure site becomes one constructor. -/
inductive ParseError where
  | packetTooSmall
  | invalidLeapIndicator
  | invalidVersionNumber
  | invalidMode
  | invalidUtf8
  | invalidKissODeathIdentifier
  | invalidTransmitTimestamp
deriving DecidableEq

/-- The flags-byte parse (lines 338–350): `li` from bits 7–6 (`flags >> 6`),
`version` from bits 5–3 (`(flags & 0b0011_1000) >> 3`), `mode` from bits 2–0
(`flags & 0b0000_0111`), each through its `from_repr`, failing in that order.
For a byte (`flags < 256`) the bit operations coincide with
`flags / 64`, `flags / 8 % 8`, `flags % 8`. -/
def parseFlags (flags : Nat) : Except ParseError (LeapIndicator × VersionNumber × Mode) :=
  match LeapIndicator.fromRepr (flags / 64) with
  | none => .error .invalidLeapIndicator
  | some li =>
    match VersionNumber.fromRepr (flags / 8 % 8) with
    | none => .error .invalidVersionNumber
    | some vn =>
      match Mode.fromRepr (flags % 8) with
      | none => .error .invalidMode
      | some mode => .ok (li, vn, mode)

/-- The reference-identifier parse (lines 358–394): the 4-byte slice is
consumed unconditionally; with `mode == Client` it is not interpreted,
otherwise the stratum classification selects the interpretation.  Stratum 0
requires a valid UTF-8 Kiss-of-Death vocabulary entry (hard failures),
stratum 1 requires valid UTF-8 but degrades an unmatched name to
`Primary(None)`, stratum 2–15 and ≥16 read a raw big-endian `u32`. -/
def parseReferenceIdentifier (mode : Mode) (stratum : Stratum) (slice4 : List Nat) :
    Except ParseError (Option ReferenceIdentifier) :=
  if mode = Mode.Client then .ok none
  else
    match stratum with
    | .KissODeathMessage =>
      match utf8Decode slice4 with
      | none => .error .invalidUtf8
      | some as_string =>
        match KissODeathIdentifier.fromStr as_string with
        | none => .error .invalidKissODeathIdentifier
        | some kod => .ok (some (.KissODeath kod))
    | .PrimaryReference =>
      match utf8Decode slice4 with
      | none => .error .invalidUtf8
      | some as_string =>
        .ok (some (.Primary (ExternalReferenceSource.fromStr as_string)))
    | .SecondaryReference =>
      .ok (some (.UnknownIpVersion
        (getU32 (byteAt slice4 0) (byteAt slice4 1) (byteAt slice4 2) (byteAt slice4 3))))
    | .Reserved =>
      .ok (some (.ReservedStratum
        (getU32 (byteAt slice4 0) (byteAt slice4 1) (byteAt slice4 2) (byteAt slice4 3))))

/-- The optional-timestamp parse used for the reference / originate / receive
fields (lines 395–407): any `NtpTimestamp::try_from` failure degrades to
`None`. -/
def parseOptionalTimestamp (b : List Nat) : Option NtpTimestamp :=
  match NtpTimestamp.try_from b with
  | .ok ts => some ts
  | .error _ => none

/-- Embedding of `impl TryFrom<&mut BytesMut> for NtpMessage` (lines
331–429). -/
def NtpMessage.try_from (value : List Nat) : Except ParseError NtpMessage :=
  if value.length < 48 then .error .packetTooSmall
  else
    match parseFlags (byteAt value 0) with
    | .error e => .error e
    | .ok (li, vn, mode) =>
      let stratum := Stratum.fromByte (byteAt value 1)
      let poll_interval := byteAt value 2
      let precision := i8OfByte (byteAt value 3)
      let root_delay :=
        i32OfU32 (getU32 (byteAt value 4) (byteAt value 5) (byteAt value 6) (byteAt value 7))
      let root_dispersion :=
        getU32 (byteAt value 8) (byteAt value 9) (byteAt value 10) (byteAt value 11)
      match parseReferenceIdentifier mode stratum (listSlice value 12 4) with
      | .error e => .error e
      | .ok reference_identifier =>
        let reference_timestamp := parseOptionalTimestamp (listSlice value 16 8)
        let originate_timestamp := parseOptionalTimestamp (listSlice value 24 8)
        let receive_timestamp := parseOptionalTimestamp (listSlice value 32 8)
        match NtpTimestamp.try_from (listSlice value 40 8) with
        | .error _ => .error .invalidTransmitTimestamp
        | .ok transmit_timestamp =>
          .ok { li, vn, mode, stratum, poll_interval, precision, root_delay,
                root_dispersion, reference_identifier, reference_timestamp,
                originate_timestamp, receive_timestamp, transmit_timestamp }

/-- The reference-identifier bytes written by `NtpMessage::to_bytes`
(lines 256–279).  A `Primary(Some(_))` name is written at the start of the
4-byte field, leaving the trailing `4 - len` bytes at their zero
initialisation (`bytes[12..16 - diff]`). -/
def ridBytes : Option ReferenceIdentifier → List Nat
  | some (.KissODeath kod) => kod.asRefStr
  | some (.Primary (some rid)) =>
    rid.asRefStr ++ List.replicate (4 - rid.asRefStr.length) 0
  | some (.Primary none) => [0, 0, 0, 0]
  | some (.IPv4Secondary ip) => u32BE ip
  | some (.IPv6AndOSISecondary v) => u32BE v
  | some (.UnknownIpVersion v) => u32BE v
  | some (.ReservedStratum v) => u32BE v
  | none => [0, 0, 0, 0]

/-- An optional timestamp encodes as its 8 bytes, or 8 zero bytes when absent
(lines 281–297). -/
def optTsBytes : Option NtpTimestamp → List Nat
  | some ts => ts.to_bytes
  | none => List.replicate 8 0

/-- Embedding of `NtpMessage::to_bytes` (lines 236–306): the fixed 48-byte
layout.  The flags byte `(li << 6) | (vn << 3) | mode` is written as a sum:
the three fields occupy disjoint bit ranges (`li ≤ 3`, `vn ≤ 4`, `mode ≤ 7`),
so bitwise or coincides with addition. -/
def NtpMessage.to_bytes (m : NtpMessage) : List Nat :=
  (m.li.toRepr * 64 + m.vn.toRepr * 8 + m.mode.toRepr) ::
  m.stratum.toByte ::
  m.poll_interval ::
  u8OfInt m.precision ::
  (u32BE (u32OfInt m.root_delay) ++
    (u32BE m.root_dispersion ++
      (ridBytes m.reference_identifier ++
        (optTsBytes m.reference_timestamp ++
          (optTsBytes m.originate_timestamp ++
            (optTsBytes m.receive_timestamp ++
              m.transmit_timestamp.to_bytes))))))

/-- Embedding of `NtpMessage::new_server_response` (lines 308–328).  The call
`Utc::now()` inside the Rust function (the clock-source instant at build time,
used when `res.transmit_timestamp` is `None`) is modelled by the explicit
parameter `now`. -/
def NtpMessage.new_server_response (now : NtpTimestamp) (res : NtpServerResponse) :
    NtpMessage where
  li := res.leap_indicator
  vn := res.version_number
  mode := .Server
  stratum := res.stratum
  poll_interval := res.poll_interval
  precision := res.precision
  root_delay := res.root_delay
  root_dispersion := res.root_dispersion
  reference_identifier := some res.reference_identifier
  reference_timestamp := some res.reference_timestamp
  originate_timestamp := res.originate_timestamp
  receive_timestamp := some res.receive_timestamp
  transmit_timestamp :=
    match res.transmit_timestamp with
    | some ts => ts
    | none => now

deriving instance DecidableEq for Except

/-! ## Arithmetic helper lemmas -/

theorem getU32_lt {a b c d : Nat} (ha : a < 256) (hb : b < 256) (hc : c < 256)
    (hd : d < 256) : getU32 a b c d < 4294967296 := by
  unfold getU32; omega

theorem getU32_of_u32BE {n : Nat} (h : n < 4294967296) :
    getU32 (n / 16777216 % 256) (n / 65536 % 256) (n / 256 % 256) (n % 256) = n := by
  unfold getU32; omega

theorem u32BE_of_getU32 {a b c d : Nat} (ha : a < 256) (hb : b < 256) (hc : c < 256)
    (hd : d < 256) : u32BE (getU32 a b c d) = [a, b, c, d] := by
  simp only [u32BE, getU32, List.cons.injEq, and_true]
  omega

theorem u8OfInt_i8OfByte {b : Nat} (h : b < 256) : u8OfInt (i8OfByte b) = b := by
  unfold u8OfInt i8OfByte
  split <;> omega

theorem u32OfInt_i32OfU32 {n : Nat} (h : n < 4294967296) :
    u32OfInt (i32OfU32 n) = n := by
  unfold u32OfInt i32OfU32
  split <;> omega

theorem u32OfInt_sub_add {s : Nat} (h : s < 4294967296) :
    u32OfInt ((s : Int) - 2208988800 + 2208988800) = s := by
  unfold u32OfInt
  omega

/-! ## Decimal digit count and `pad_int` -/

theorem digitLen_pos (n : Nat) : 1 ≤ digitLen n := by
  rw [digitLen_eq]
  split <;> omega

theorem digitLen_bounds : ∀ n, 1 ≤ n → 10 ^ (digitLen n - 1) ≤ n ∧ n < 10 ^ digitLen n := by
  intro n
  induction n using Nat.strong_induction_on with
  | _ n ih =>
    intro h1
    rw [digitLen_eq]
    split
    · rename_i h10
      constructor
      · simpa using h1
      · simpa using h10
    · rename_i h10
      have hlt : n / 10 < n := Nat.div_lt_self (by omega) (by omega)
      obtain ⟨hlb, hub⟩ := ih (n / 10) hlt (by omega)
      have hpos : 1 ≤ digitLen (n / 10) := digitLen_pos _
      have e1 : 10 ^ digitLen (n / 10) = 10 ^ (digitLen (n / 10) - 1) * 10 := by
        conv_lhs => rw [show digitLen (n / 10) = (digitLen (n / 10) - 1) + 1 by omega]
        rw [pow_succ]
      have e2 : 10 ^ (digitLen (n / 10) + 1) = 10 ^ digitLen (n / 10) * 10 := pow_succ 10 _
      have hq := Nat.div_add_mod n 10
      have hm : n % 10 < 10 := Nat.mod_lt _ (by omega)
      constructor
      · have h3 : 10 ^ (digitLen (n / 10) - 1) * 10 ≤ (n / 10) * 10 :=
          Nat.mul_le_mul_right _ hlb
        simp only [Nat.add_sub_cancel]
        omega
      · have h4 : (n / 10 + 1) * 10 ≤ 10 ^ digitLen (n / 10) * 10 :=
          Nat.mul_le_mul_right _ (by omega)
        omega

theorem digitLen_eq_of_bounds : ∀ d n, 10 ^ d ≤ n → n < 10 ^ (d + 1) → digitLen n = d + 1 := by
  intro d
  induction d with
  | zero =>
    intro n h1 h2
    rw [digitLen_eq, if_pos (by simpa using h2)]
  | succ d ih =>
    intro n h1 h2
    have hpow : (10 : Nat) ≤ 10 ^ (d + 1) := by
      calc (10 : Nat) = 10 ^ 1 := (pow_one 10).symm
        _ ≤ 10 ^ (d + 1) := Nat.pow_le_pow_right (by omega) (by omega)
    rw [digitLen_eq, if_neg (by omega)]
    have hd1 : 10 ^ d ≤ n / 10 := by
      rw [Nat.le_div_iff_mul_le (by omega)]
      calc 10 ^ d * 10 = 10 ^ (d + 1) := (pow_succ 10 d).symm
        _ ≤ n := h1
    have hd2 : n / 10 < 10 ^ (d + 1) := by
      rw [Nat.div_lt_iff_lt_mul (by omega)]
      calc n < 10 ^ (d + 1 + 1) := h2
        _ = 10 ^ (d + 1) * 10 := pow_succ 10 (d + 1)
    rw [ih _ hd1 hd2]

theorem digitLen_le_ten {n : Nat} (h : n < 4294967296) : digitLen n ≤ 10 := by
  rcases Nat.eq_zero_or_pos n with h0 | h1
  · subst h0; rw [digitLen_eq]; simp
  · obtain ⟨hlb, _⟩ := digitLen_bounds n h1
    by_contra hgt
    have h10 : (10 : Nat) ≤ digitLen n - 1 := by omega
    have : (10 : Nat) ^ 10 ≤ 10 ^ (digitLen n - 1) := Nat.pow_le_pow_right (by omega) h10
    have : (10000000000 : Nat) ≤ n := by
      calc (10000000000 : Nat) = 10 ^ 10 := by norm_num
        _ ≤ 10 ^ (digitLen n - 1) := this
        _ ≤ n := hlb
    omega

/-- For a nonzero `u32` fraction, `pad_int _ 9` lands in `[10^8, 10^9)`
(a 9-digit value). -/
theorem pad_int_bounds {f : Nat} (h1 : 1 ≤ f) (h2 : f < 4294967296) :
    100000000 ≤ pad_int f 9 ∧ pad_int f 9 < 1000000000 := by
  obtain ⟨hlb, hub⟩ := digitLen_bounds f h1
  have hpos : 1 ≤ digitLen f := digitLen_pos f
  have hle : digitLen f ≤ 10 := digitLen_le_ten h2
  unfold pad_int
  split
  · rename_i hd9
    constructor
    · have : 10 ^ (digitLen f - 1) * 10 ^ (9 - digitLen f) ≤ f * 10 ^ (9 - digitLen f) :=
        Nat.mul_le_mul_right _ hlb
      calc (100000000 : Nat) = 10 ^ 8 := by norm_num
        _ = 10 ^ (digitLen f - 1) * 10 ^ (9 - digitLen f) := by
            rw [← pow_add]; congr 1; omega
        _ ≤ f * 10 ^ (9 - digitLen f) := this
    · have hpow : (0 : Nat) < 10 ^ (9 - digitLen f) := pow_pos (by omega) _
      have : f * 10 ^ (9 - digitLen f) < 10 ^ digitLen f * 10 ^ (9 - digitLen f) :=
        (Nat.mul_lt_mul_right hpow).mpr hub
      calc f * 10 ^ (9 - digitLen f) < 10 ^ digitLen f * 10 ^ (9 - digitLen f) := this
        _ = 10 ^ 9 := by rw [← pow_add]; congr 1; omega
        _ = 1000000000 := by norm_num
  · rename_i hd9
    have hdl : digitLen f = 10 := by omega
    rw [hdl]
    simp only [show (10 : Nat) - 9 = 1 by rfl, pow_one]
    have hflb : 10 ^ 9 ≤ f := by
      have : 10 ^ (digitLen f - 1) ≤ f := hlb
      rwa [hdl] at this
    constructor
    · have : (10 : Nat) ^ 9 / 10 ≤ f / 10 := Nat.div_le_div_right hflb
      calc (100000000 : Nat) = 10 ^ 9 / 10 := by norm_num
        _ ≤ f / 10 := this
    · omega

/-- `pad_int _ 9` is idempotent on `u32` fractions: a second application (as
happens when a decoded nanosecond count is re-encoded as the wire fraction and
decoded again) is the identity. -/
theorem pad_int_idem {f : Nat} (h2 : f < 4294967296) :
    pad_int (pad_int f 9) 9 = pad_int f 9 := by
  rcases Nat.eq_zero_or_pos f with h0 | h1
  · subst h0
    rfl
  · obtain ⟨hlb, hub⟩ := pad_int_bounds h1 h2
    have hd : digitLen (pad_int f 9) = 9 := by
      have := digitLen_eq_of_bounds 8 (pad_int f 9) (by norm_num; omega)
        (by norm_num; omega)
      omega
    generalize hgen : pad_int f 9 = p at hd ⊢
    unfold pad_int
    rw [hd]
    simp

/-- On `u32` fractions `pad_int _ 9` stays below `2^32` (in fact below
`10^9`), so the nanosecond count is a valid `u32` and a valid sub-second
nanosecond value. -/
theorem pad_int_lt {f : Nat} (h2 : f < 4294967296) : pad_int f 9 < 1000000000 := by
  rcases Nat.eq_zero_or_pos f with h0 | h1
  · subst h0; unfold pad_int; rw [digitLen_eq]; simp
  · exact (pad_int_bounds h1 h2).2

theorem pad_int_eq_zero_iff {f : Nat} (h2 : f < 4294967296) :
    pad_int f 9 = 0 ↔ f = 0 := by
  constructor
  · intro h
    by_contra hne
    have := (pad_int_bounds (by omega) h2).1
    omega
  · intro h
    subst h
    rfl

/-! ## UTF-8 inversion: a byte list that validates is the encoding of its
scalar values -/

theorem decodeUtf8Char_encode {l : List Nat} {c : Nat} {rest : List Nat}
    (h : decodeUtf8Char l = some (c, rest)) : utf8EncodeChar c ++ rest = l := by
  cases l with
  | nil => simp [decodeUtf8Char] at h
  | cons b0 t =>
    simp only [decodeUtf8Char] at h
    repeat' split at h
    all_goals simp at h
    all_goals (obtain ⟨h1, h2⟩ := h; subst h1; subst h2; unfold utf8EncodeChar)
    all_goals first
      | (rw [if_pos (by omega)]
         simp)
      | (rw [if_neg (by omega), if_pos (by omega)]
         simp only [List.cons_append, List.nil_append, List.cons.injEq,
           eq_self_iff_true, and_true]
         omega)
      | (rw [if_neg (by omega), if_neg (by omega), if_pos (by omega)]
         simp only [List.cons_append, List.nil_append, List.cons.injEq,
           eq_self_iff_true, and_true]
         omega)
      | (rw [if_neg (by omega), if_neg (by omega), if_neg (by omega)]
         simp only [List.cons_append, List.nil_append, List.cons.injEq,
           eq_self_iff_true, and_true]
         omega)

theorem utf8DecodeAux_encode : ∀ fuel l cs, utf8DecodeAux fuel l = some cs →
    utf8Encode cs = l := by
  intro fuel
  induction fuel with
  | zero =>
    intro l cs h
    cases l with
    | nil => simp [utf8DecodeAux] at h; subst h; rfl
    | cons b t => simp [utf8DecodeAux] at h
  | succ fuel ih =>
    intro l cs h
    cases l with
    | nil => simp [utf8DecodeAux] at h; subst h; rfl
    | cons b t =>
      simp only [utf8DecodeAux] at h
      split at h
      · exact absurd h (by simp)
      · rename_i c rest hdec
        split at h
        · rename_i cs' hrec
          simp only [Option.some.injEq] at h
          subst h
          simp only [utf8Encode]
          rw [ih rest cs' hrec]
          exact decodeUtf8Char_encode hdec
        · exact absurd h (by simp)

theorem utf8Decode_encode {l : List Nat} {cs : List Nat}
    (h : utf8Decode l = some cs) : utf8Encode cs = l :=
  utf8DecodeAux_encode _ _ _ h

/-! ## Vocabulary inversions -/

theorem externalReferenceSource_fromStr_some {s : List Nat} {r : ExternalReferenceSource}
    (h : ExternalReferenceSource.fromStr s = some r) : s = r.asRefStr := by
  unfold ExternalReferenceSource.fromStr at h
  by_cases h0 : s = ascii ("LOCL")
  · rw [if_pos h0] at h
    injection h with h'
    subst h'
    exact h0
  · rw [if_neg h0] at h
    by_cases h1 : s = ascii ("CESM")
    · rw [if_pos h1] at h
      injection h with h'
      subst h'
      exact h1
    · rw [if_neg h1] at h
      by_cases h2 : s = ascii ("RBDM")
      · rw [if_pos h2] at h
        injection h with h'
        subst h'
        exact h2
      · rw [if_neg h2] at h
        by_cases h3 : s = ascii ("PPS")
        · rw [if_pos h3] at h
          injection h with h'
          subst h'
          exact h3
        · rw [if_neg h3] at h
          by_cases h4 : s = ascii ("IRIG")
          · rw [if_pos h4] at h
            injection h with h'
            subst h'
            exact h4
          · rw [if_neg h4] at h
            by_cases h5 : s = ascii ("ACTS")
            · rw [if_pos h5] at h
              injection h with h'
              subst h'
              exact h5
            · rw [if_neg h5] at h
              by_cases h6 : s = ascii ("USNO")
              · rw [if_pos h6] at h
                injection h with h'
                subst h'
                exact h6
              · rw [if_neg h6] at h
                by_cases h7 : s = ascii ("PTB")
                · rw [if_pos h7] at h
                  injection h with h'
                  subst h'
                  exact h7
                · rw [if_neg h7] at h
                  by_cases h8 : s = ascii ("TDF")
                  · rw [if_pos h8] at h
                    injection h with h'
                    subst h'
                    exact h8
                  · rw [if_neg h8] at h
                    by_cases h9 : s = ascii ("DCF")
                    · rw [if_pos h9] at h
                      injection h with h'
                      subst h'
                      exact h9
                    · rw [if_neg h9] at h
                      by_cases h10 : s = ascii ("MSF")
                      · rw [if_pos h10] at h
                        injection h with h'
                        subst h'
                        exact h10
                      · rw [if_neg h10] at h
                        by_cases h11 : s = ascii ("WWV")
                        · rw [if_pos h11] at h
                          injection h with h'
                          subst h'
                          exact h11
                        · rw [if_neg h11] at h
                          by_cases h12 : s = ascii ("WWVB")
                          · rw [if_pos h12] at h
                            injection h with h'
                            subst h'
                            exact h12
                          · rw [if_neg h12] at h
                            by_cases h13 : s = ascii ("WWVH")
                            · rw [if_pos h13] at h
                              injection h with h'
                              subst h'
                              exact h13
                            · rw [if_neg h13] at h
                              by_cases h14 : s = ascii ("CHU")
                              · rw [if_pos h14] at h
                                injection h with h'
                                subst h'
                                exact h14
                              · rw [if_neg h14] at h
                                by_cases h15 : s = ascii ("LORC")
                                · rw [if_pos h15] at h
                                  injection h with h'
                                  subst h'
                                  exact h15
                                · rw [if_neg h15] at h
                                  by_cases h16 : s = ascii ("OMEG")
                                  · rw [if_pos h16] at h
                                    injection h with h'
                                    subst h'
                                    exact h16
                                  · rw [if_neg h16] at h
                                    by_cases h17 : s = ascii ("GPS")
                                    · rw [if_pos h17] at h
                                      injection h with h'
                                      subst h'
                                      exact h17
                                    · rw [if_neg h17] at h
                                      exact absurd h (by simp)

theorem kissODeathIdentifier_fromStr_some {s : List Nat} {r : KissODeathIdentifier}
    (h : KissODeathIdentifier.fromStr s = some r) : s = r.asRefStr := by
  unfold KissODeathIdentifier.fromStr at h
  by_cases h0 : s = ascii ("ACST")
  · rw [if_pos h0] at h
    injection h with h'
    subst h'
    exact h0
  · rw [if_neg h0] at h
    by_cases h1 : s = ascii ("AUTH")
    · rw [if_pos h1] at h
      injection h with h'
      subst h'
      exact h1
    · rw [if_neg h1] at h
      by_cases h2 : s = ascii ("AUTO")
      · rw [if_pos h2] at h
        injection h with h'
        subst h'
        exact h2
      · rw [if_neg h2] at h
        by_cases h3 : s = ascii ("BCST")
        · rw [if_pos h3] at h
          injection h with h'
          subst h'
          exact h3
        · rw [if_neg h3] at h
          by_cases h4 : s = ascii ("CRYP")
          · rw [if_pos h4] at h
            injection h with h'
            subst h'
            exact h4
          · rw [if_neg h4] at h
            by_cases h5 : s = ascii ("DENY")
            · rw [if_pos h5] at h
              injection h with h'
              subst h'
              exact h5
            · rw [if_neg h5] at h
              by_cases h6 : s = ascii ("DROP")
              · rw [if_pos h6] at h
                injection h with h'
                subst h'
                exact h6
              · rw [if_neg h6] at h
                by_cases h7 : s = ascii ("RSTR")
                · rw [if_pos h7] at h
                  injection h with h'
                  subst h'
                  exact h7
                · rw [if_neg h7] at h
                  by_cases h8 : s = ascii ("INIT")
                  · rw [if_pos h8] at h
                    injection h with h'
                    subst h'
                    exact h8
                  · rw [if_neg h8] at h
                    by_cases h9 : s = ascii ("MCST")
                    · rw [if_pos h9] at h
                      injection h with h'
                      subst h'
                      exact h9
                    · rw [if_neg h9] at h
                      by_cases h10 : s = ascii ("NKEY")
                      · rw [if_pos h10] at h
                        injection h with h'
                        subst h'
                        exact h10
                      · rw [if_neg h10] at h
                        by_cases h11 : s = ascii ("RATE")
                        · rw [if_pos h11] at h
                          injection h with h'
                          subst h'
                          exact h11
                        · rw [if_neg h11] at h
                          by_cases h12 : s = ascii ("RMOT")
                          · rw [if_pos h12] at h
                            injection h with h'
                            subst h'
                            exact h12
                          · rw [if_neg h12] at h
                            by_cases h13 : s = ascii ("STEP")
                            · rw [if_pos h13] at h
                              injection h with h'
                              subst h'
                              exact h13
                            · rw [if_neg h13] at h
                              exact absurd h (by simp)

/-! ## Per-field encode/decode roundtrips -/

theorem parseFlags_roundtrip (li : LeapIndicator) (vn : VersionNumber) (mode : Mode) :
    parseFlags (li.toRepr * 64 + vn.toRepr * 8 + mode.toRepr) = .ok (li, vn, mode) := by
  cases li <;> cases vn <;> cases mode <;> rfl

theorem stratum_roundtrip (st : Stratum) : Stratum.fromByte st.toByte = st := by
  cases st <;> rfl

/-! ## Buffer access lemmas -/

theorem byteAt_lt {l : List Nat} (hb : ∀ x ∈ l, x < 256) {i : Nat} (hi : i < l.length) :
    byteAt l i < 256 := by
  unfold byteAt
  rw [List.getD_eq_getElem l 0 hi]
  exact hb _ (List.getElem_mem hi)

theorem listSlice_length {l : List Nat} {start len : Nat} (h : start + len ≤ l.length) :
    (listSlice l start len).length = len := by
  unfold listSlice
  rw [List.length_take, List.length_drop]
  omega

theorem listSlice_mem {l : List Nat} {start len : Nat} {x : Nat}
    (h : x ∈ listSlice l start len) : x ∈ l := by
  unfold listSlice at h
  exact List.mem_of_mem_drop (List.mem_of_mem_take h)

/-! ## Timestamp codec lemmas -/

theorem fromTimestampOpt_some {secs : Int} {nsecs : Nat} {dt : NaiveDateTime}
    (h : NaiveDateTime.fromTimestampOpt secs nsecs = some dt) :
    dt = ⟨secs, nsecs⟩ := by
  unfold NaiveDateTime.fromTimestampOpt at h
  split at h
  · exact absurd h (by simp)
  · split at h
    · exact absurd h (by simp)
    · split at h
      · exact absurd h (by simp)
      · simp only [Option.some.injEq] at h
        exact h.symm

theorem fromTimestampOpt_eq_some {secs : Int} {nsecs : Nat}
    (h1 : nsecs < 2000000000) (h2 : -8334632851200 ≤ secs)
    (h3 : secs ≤ 8210298412799) :
    NaiveDateTime.fromTimestampOpt secs nsecs = some ⟨secs, nsecs⟩ := by
  unfold NaiveDateTime.fromTimestampOpt
  rw [if_neg (by omega), if_neg (by omega), if_neg (by omega)]

/-- Re-encoding a successfully decoded timestamp and decoding it again yields
the same timestamp: the seconds round-trip exactly, and the nanosecond count
written as the wire fraction is a fixed point of `pad_int _ 9`. -/
theorem ntpTimestamp_try_from_to_bytes {b : List Nat} {ts : NtpTimestamp}
    (hlen : b.length = 8) (hb : ∀ x ∈ b, x < 256)
    (h : NtpTimestamp.try_from b = .ok ts) :
    NtpTimestamp.try_from ts.to_bytes = .ok ts := by
  simp only [NtpTimestamp.try_from] at h
  have hslt : getU32 (byteAt b 0) (byteAt b 1) (byteAt b 2) (byteAt b 3) < 4294967296 :=
    getU32_lt (byteAt_lt hb (by omega)) (byteAt_lt hb (by omega))
      (byteAt_lt hb (by omega)) (byteAt_lt hb (by omega))
  have hflt : getU32 (byteAt b 4) (byteAt b 5) (byteAt b 6) (byteAt b 7) < 4294967296 :=
    getU32_lt (byteAt_lt hb (by omega)) (byteAt_lt hb (by omega))
      (byteAt_lt hb (by omega)) (byteAt_lt hb (by omega))
  set s := getU32 (byteAt b 0) (byteAt b 1) (byteAt b 2) (byteAt b 3) with hs
  set f := getU32 (byteAt b 4) (byteAt b 5) (byteAt b 6) (byteAt b 7) with hf
  set n := pad_int f 9 with hn
  have hnlt : n < 1000000000 := pad_int_lt hflt
  split at h
  · exact absurd h (by simp)
  · rename_i hsent
    split at h
    · rename_i dt hdt
      simp only [Except.ok.injEq] at h
      subst h
      have hdt' := fromTimestampOpt_some hdt
      subst hdt'
      simp only [NtpTimestamp.try_from, NtpTimestamp.to_bytes]
      rw [show ((s : Int) - 2208988800 + 2208988800) = (s : Int) by ring]
      have hsval : u32OfInt (s : Int) = s := by unfold u32OfInt; omega
      rw [hsval]
      simp only [u32BE, List.cons_append, List.nil_append, byteAt,
        List.getD_cons_zero, List.getD_cons_succ]
      rw [getU32_of_u32BE hslt, getU32_of_u32BE (by omega)]
      rw [show pad_int n 9 = n by rw [hn]; exact pad_int_idem hflt]
      rw [if_neg hsent]
      rw [fromTimestampOpt_eq_some (by omega) (by omega) (by omega)]
    · exact absurd h (by simp)

theorem parseOptionalTimestamp_some {b : List Nat} {ts : NtpTimestamp}
    (h : parseOptionalTimestamp b = some ts) : NtpTimestamp.try_from b = .ok ts := by
  unfold parseOptionalTimestamp at h
  split at h
  · rename_i ts' hts
    simp only [Option.some.injEq] at h
    subst h
    exact hts
  · exact absurd h (by simp)

theorem parseOptionalTimestamp_to_bytes {b : List Nat} {ts : NtpTimestamp}
    (hlen : b.length = 8) (hb : ∀ x ∈ b, x < 256)
    (h : parseOptionalTimestamp b = some ts) :
    parseOptionalTimestamp ts.to_bytes = some ts := by
  have := ntpTimestamp_try_from_to_bytes hlen hb (parseOptionalTimestamp_some h)
  unfold parseOptionalTimestamp
  rw [this]

theorem parseOptionalTimestamp_zero : parseOptionalTimestamp (List.replicate 8 0) = none := by
  decide

/-! ## Reference-identifier codec lemmas -/

theorem ridBytes_length (rid : Option ReferenceIdentifier) : (ridBytes rid).length = 4 := by
  cases rid with
  | none => rfl
  | some rid =>
    cases rid with
    | KissODeath k => cases k <;> rfl
    | Primary o =>
      cases o with
      | none => rfl
      | some r => cases r <;> rfl
    | IPv4Secondary ip => rfl
    | IPv6AndOSISecondary v => rfl
    | UnknownIpVersion v => rfl
    | ReservedStratum v => rfl

/-- Re-encoding a successfully parsed reference identifier and parsing the
4 bytes again (under the same mode and stratum) yields the same identifier. -/
theorem parseReferenceIdentifier_roundtrip {mode : Mode} {st : Stratum} {b : List Nat}
    {rid : Option ReferenceIdentifier}
    (hlen : b.length = 4) (hb : ∀ x ∈ b, x < 256)
    (h : parseReferenceIdentifier mode st b = .ok rid) :
    parseReferenceIdentifier mode st (ridBytes rid) = .ok rid := by
  by_cases hmode : mode = Mode.Client
  · unfold parseReferenceIdentifier at h ⊢
    rw [if_pos hmode] at h ⊢
    simp only [Except.ok.injEq] at h
    subst h
    rfl
  · cases st with
    | KissODeathMessage =>
      simp only [parseReferenceIdentifier, if_neg hmode] at h ⊢
      split at h
      · exact absurd h (by simp)
      · rename_i s hu
        split at h
        · exact absurd h (by simp)
        · rename_i k hk
          simp only [Except.ok.injEq] at h
          subst h
          have hsr := kissODeathIdentifier_fromStr_some hk
          subst hsr
          cases k <;> decide
    | PrimaryReference =>
      simp only [parseReferenceIdentifier, if_neg hmode] at h ⊢
      split at h
      · exact absurd h (by simp)
      · rename_i s hu
        simp only [Except.ok.injEq] at h
        subst h
        cases hr : ExternalReferenceSource.fromStr s with
        | none => decide
        | some r =>
          have hsr := externalReferenceSource_fromStr_some hr
          subst hsr
          have henc := utf8Decode_encode hu
          have hlen4 : (utf8Encode (ExternalReferenceSource.asRefStr r)).length = 4 := by
            rw [henc]; exact hlen
          cases r <;> first
            | (exact absurd hlen4 (by decide))
            | decide
    | SecondaryReference =>
      simp only [parseReferenceIdentifier, if_neg hmode, Except.ok.injEq] at h ⊢
      subst h
      set v := getU32 (byteAt b 0) (byteAt b 1) (byteAt b 2) (byteAt b 3) with hv0
      have hv : v < 4294967296 :=
        getU32_lt (byteAt_lt hb (by omega)) (byteAt_lt hb (by omega))
          (byteAt_lt hb (by omega)) (byteAt_lt hb (by omega))
      simp only [ridBytes, u32BE, byteAt, List.getD_cons_zero, List.getD_cons_succ]
      rw [getU32_of_u32BE hv]
    | Reserved =>
      simp only [parseReferenceIdentifier, if_neg hmode, Except.ok.injEq] at h ⊢
      subst h
      set v := getU32 (byteAt b 0) (byteAt b 1) (byteAt b 2) (byteAt b 3) with hv0
      have hv : v < 4294967296 :=
        getU32_lt (byteAt_lt hb (by omega)) (byteAt_lt hb (by omega))
          (byteAt_lt hb (by omega)) (byteAt_lt hb (by omega))
      simp only [ridBytes, u32BE, byteAt, List.getD_cons_zero, List.getD_cons_succ]
      rw [getU32_of_u32BE hv]

/-! ## Message-level decode inversion and encode layout -/

theorem u32OfInt_lt (i : Int) : u32OfInt i < 4294967296 := by
  unfold u32OfInt; omega

theorem i8OfByte_u8OfInt {i : Int} (h1 : -128 ≤ i) (h2 : i < 128) :
    i8OfByte (u8OfInt i) = i := by
  unfold i8OfByte u8OfInt
  split <;> omega

theorem i8OfByte_range {b : Nat} (h : b < 256) :
    -128 ≤ i8OfByte b ∧ i8OfByte b < 128 := by
  unfold i8OfByte
  split <;> omega

theorem i32OfU32_u32OfInt {i : Int} (h1 : -2147483648 ≤ i) (h2 : i < 2147483648) :
    i32OfU32 (u32OfInt i) = i := by
  unfold i32OfU32 u32OfInt
  split <;> omega

theorem i32OfU32_range {n : Nat} (h : n < 4294967296) :
    -2147483648 ≤ i32OfU32 n ∧ i32OfU32 n < 2147483648 := by
  unfold i32OfU32
  split <;> omega

/-- Inversion of a successful `NtpMessage::try_from`: every field of the
resulting message is determined by its wire region. -/
theorem NtpMessage.try_from_ok {value : List Nat} {m : NtpMessage}
    (h : NtpMessage.try_from value = .ok m) :
    48 ≤ value.length ∧
    parseFlags (byteAt value 0) = .ok (m.li, m.vn, m.mode) ∧
    m.stratum = Stratum.fromByte (byteAt value 1) ∧
    m.poll_interval = byteAt value 2 ∧
    m.precision = i8OfByte (byteAt value 3) ∧
    m.root_delay = i32OfU32 (getU32 (byteAt value 4) (byteAt value 5) (byteAt value 6)
      (byteAt value 7)) ∧
    m.root_dispersion = getU32 (byteAt value 8) (byteAt value 9) (byteAt value 10)
      (byteAt value 11) ∧
    parseReferenceIdentifier m.mode m.stratum (listSlice value 12 4) =
      .ok m.reference_identifier ∧
    m.reference_timestamp = parseOptionalTimestamp (listSlice value 16 8) ∧
    m.originate_timestamp = parseOptionalTimestamp (listSlice value 24 8) ∧
    m.receive_timestamp = parseOptionalTimestamp (listSlice value 32 8) ∧
    NtpTimestamp.try_from (listSlice value 40 8) = .ok m.transmit_timestamp := by
  simp only [NtpMessage.try_from] at h
  split at h
  · exact absurd h (by simp)
  · rename_i hlen
    split at h
    · exact absurd h (by simp)
    · rename_i li vn mode hflags
      split at h
      · exact absurd h (by simp)
      · rename_i rid hrid
        split at h
        · exact absurd h (by simp)
        · rename_i tts htts
          simp only [Except.ok.injEq] at h
          subst h
          exact ⟨by omega, hflags, rfl, rfl, rfl, rfl, rfl, hrid, rfl, rfl, rfl, htts⟩

theorem ntpTimestamp_to_bytes_length (ts : NtpTimestamp) : ts.to_bytes.length = 8 := rfl

theorem optTsBytes_length (o : Option NtpTimestamp) : (optTsBytes o).length = 8 := by
  cases o <;> rfl

theorem ntpMessage_to_bytes_length (m : NtpMessage) : m.to_bytes.length = 48 := by
  simp only [NtpMessage.to_bytes, List.length_cons, List.length_append,
    ridBytes_length, optTsBytes_length, ntpTimestamp_to_bytes_length, u32BE,
    List.length_nil]

theorem NtpMessage.to_bytes_drop12 (m : NtpMessage) :
    List.drop 12 m.to_bytes =
      ridBytes m.reference_identifier ++
        (optTsBytes m.reference_timestamp ++
          (optTsBytes m.originate_timestamp ++
            (optTsBytes m.receive_timestamp ++ m.transmit_timestamp.to_bytes))) := rfl

theorem NtpMessage.to_bytes_slice12 (m : NtpMessage) :
    listSlice m.to_bytes 12 4 = ridBytes m.reference_identifier := by
  show (List.drop 12 m.to_bytes).take 4 = _
  rw [NtpMessage.to_bytes_drop12]
  exact List.take_left' (ridBytes_length _)

theorem NtpMessage.to_bytes_drop16 (m : NtpMessage) :
    List.drop 16 m.to_bytes =
      optTsBytes m.reference_timestamp ++
        (optTsBytes m.originate_timestamp ++
          (optTsBytes m.receive_timestamp ++ m.transmit_timestamp.to_bytes)) := by
  have h4 : (16 : Nat) = 12 + 4 := rfl
  rw [h4, ← List.drop_drop, NtpMessage.to_bytes_drop12]
  exact List.drop_left' (ridBytes_length _)

theorem NtpMessage.to_bytes_slice16 (m : NtpMessage) :
    listSlice m.to_bytes 16 8 = optTsBytes m.reference_timestamp := by
  show (List.drop 16 m.to_bytes).take 8 = _
  rw [NtpMessage.to_bytes_drop16]
  exact List.take_left' (optTsBytes_length _)

theorem NtpMessage.to_bytes_drop24 (m : NtpMessage) :
    List.drop 24 m.to_bytes =
      optTsBytes m.originate_timestamp ++
        (optTsBytes m.receive_timestamp ++ m.transmit_timestamp.to_bytes) := by
  have h4 : (24 : Nat) = 16 + 8 := rfl
  rw [h4, ← List.drop_drop, NtpMessage.to_bytes_drop16]
  exact List.drop_left' (optTsBytes_length _)

theorem NtpMessage.to_bytes_slice24 (m : NtpMessage) :
    listSlice m.to_bytes 24 8 = optTsBytes m.originate_timestamp := by
  show (List.drop 24 m.to_bytes).take 8 = _
  rw [NtpMessage.to_bytes_drop24]
  exact List.take_left' (optTsBytes_length _)

theorem NtpMessage.to_bytes_drop32 (m : NtpMessage) :
    List.drop 32 m.to_bytes =
      optTsBytes m.receive_timestamp ++ m.transmit_timestamp.to_bytes := by
  have h4 : (32 : Nat) = 24 + 8 := rfl
  rw [h4, ← List.drop_drop, NtpMessage.to_bytes_drop24]
  exact List.drop_left' (optTsBytes_length _)

theorem NtpMessage.to_bytes_slice32 (m : NtpMessage) :
    listSlice m.to_bytes 32 8 = optTsBytes m.receive_timestamp := by
  show (List.drop 32 m.to_bytes).take 8 = _
  rw [NtpMessage.to_bytes_drop32]
  exact List.take_left' (optTsBytes_length _)

theorem NtpMessage.to_bytes_drop40 (m : NtpMessage) :
    List.drop 40 m.to_bytes = m.transmit_timestamp.to_bytes := by
  have h4 : (40 : Nat) = 32 + 8 := rfl
  rw [h4, ← List.drop_drop, NtpMessage.to_bytes_drop32]
  exact List.drop_left' (optTsBytes_length _)

theorem NtpMessage.to_bytes_slice40 (m : NtpMessage) :
    listSlice m.to_bytes 40 8 = m.transmit_timestamp.to_bytes := by
  show (List.drop 40 m.to_bytes).take 8 = _
  rw [NtpMessage.to_bytes_drop40, ← ntpTimestamp_to_bytes_length m.transmit_timestamp]
  exact List.take_length _

/-- Characterisation of a successful decode: with a long-enough buffer and
successful flags / reference-identifier / transmit-timestamp parses, the
decoder returns exactly the message assembled from the wire regions. -/
theorem NtpMessage.try_from_eq_ok {value : List Nat} {li : LeapIndicator}
    {vn : VersionNumber} {mode : Mode} {rid : Option ReferenceIdentifier}
    {tts : NtpTimestamp}
    (hlen : ¬ value.length < 48)
    (hf : parseFlags (byteAt value 0) = .ok (li, vn, mode))
    (hr : parseReferenceIdentifier mode (Stratum.fromByte (byteAt value 1))
      (listSlice value 12 4) = .ok rid)
    (ht : NtpTimestamp.try_from (listSlice value 40 8) = .ok tts) :
    NtpMessage.try_from value = .ok
      { li, vn, mode,
        stratum := Stratum.fromByte (byteAt value 1),
        poll_interval := byteAt value 2,
        precision := i8OfByte (byteAt value 3),
        root_delay := i32OfU32 (getU32 (byteAt value 4) (byteAt value 5)
          (byteAt value 6) (byteAt value 7)),
        root_dispersion := getU32 (byteAt value 8) (byteAt value 9) (byteAt value 10)
          (byteAt value 11),
        reference_identifier := rid,
        reference_timestamp := parseOptionalTimestamp (listSlice value 16 8),
        originate_timestamp := parseOptionalTimestamp (listSlice value 24 8),
        receive_timestamp := parseOptionalTimestamp (listSlice value 32 8),
        transmit_timestamp := tts } := by
  simp only [NtpMessage.try_from, if_neg hlen, hf, hr, ht]

/-- Re-encoding a successfully decoded message and decoding it again yields
the same message. -/
theorem ntpMessage_try_from_to_bytes {bytes : List Nat} {m : NtpMessage}
    (hb : ∀ x ∈ bytes, x < 256)
    (h : NtpMessage.try_from bytes = .ok m) :
    NtpMessage.try_from m.to_bytes = .ok m := by
  obtain ⟨hlen, hflags, hst, hpoll, hprec, hrd, hdisp, hrid, hrts, hots, hrcts, htts⟩ :=
    NtpMessage.try_from_ok h
  have hb3 : byteAt bytes 3 < 256 := byteAt_lt hb (by omega)
  have hb4 : byteAt bytes 4 < 256 := byteAt_lt hb (by omega)
  have hb5 : byteAt bytes 5 < 256 := byteAt_lt hb (by omega)
  have hb6 : byteAt bytes 6 < 256 := byteAt_lt hb (by omega)
  have hb7 : byteAt bytes 7 < 256 := byteAt_lt hb (by omega)
  have hb8 : byteAt bytes 8 < 256 := byteAt_lt hb (by omega)
  have hb9 : byteAt bytes 9 < 256 := byteAt_lt hb (by omega)
  have hb10 : byteAt bytes 10 < 256 := byteAt_lt hb (by omega)
  have hb11 : byteAt bytes 11 < 256 := byteAt_lt hb (by omega)
  have hridRT := parseReferenceIdentifier_roundtrip (listSlice_length (by omega))
    (fun x hx => hb x (listSlice_mem hx)) hrid
  have htsRT := ntpTimestamp_try_from_to_bytes (listSlice_length (by omega))
    (fun x hx => hb x (listSlice_mem hx)) htts
  have e0 : byteAt m.to_bytes 0 = m.li.toRepr * 64 + m.vn.toRepr * 8 + m.mode.toRepr := rfl
  have e1 : byteAt m.to_bytes 1 = m.stratum.toByte := rfl
  have e2 : byteAt m.to_bytes 2 = m.poll_interval := rfl
  have e3 : byteAt m.to_bytes 3 = u8OfInt m.precision := rfl
  have e47 : getU32 (byteAt m.to_bytes 4) (byteAt m.to_bytes 5) (byteAt m.to_bytes 6)
      (byteAt m.to_bytes 7) = u32OfInt m.root_delay := by
    have w0 : byteAt m.to_bytes 4 = u32OfInt m.root_delay / 16777216 % 256 := rfl
    have w1 : byteAt m.to_bytes 5 = u32OfInt m.root_delay / 65536 % 256 := rfl
    have w2 : byteAt m.to_bytes 6 = u32OfInt m.root_delay / 256 % 256 := rfl
    have w3 : byteAt m.to_bytes 7 = u32OfInt m.root_delay % 256 := rfl
    rw [w0, w1, w2, w3]
    exact getU32_of_u32BE (u32OfInt_lt _)
  have hdisp32 : m.root_dispersion < 4294967296 := by
    rw [hdisp]; exact getU32_lt hb8 hb9 hb10 hb11
  have e811 : getU32 (byteAt m.to_bytes 8) (byteAt m.to_bytes 9) (byteAt m.to_bytes 10)
      (byteAt m.to_bytes 11) = m.root_dispersion := by
    have w0 : byteAt m.to_bytes 8 = m.root_dispersion / 16777216 % 256 := rfl
    have w1 : byteAt m.to_bytes 9 = m.root_dispersion / 65536 % 256 := rfl
    have w2 : byteAt m.to_bytes 10 = m.root_dispersion / 256 % 256 := rfl
    have w3 : byteAt m.to_bytes 11 = m.root_dispersion % 256 := rfl
    rw [w0, w1, w2, w3]
    exact getU32_of_u32BE hdisp32
  have hf' : parseFlags (byteAt m.to_bytes 0) = .ok (m.li, m.vn, m.mode) := by
    rw [e0]; exact parseFlags_roundtrip _ _ _
  have hst' : Stratum.fromByte (byteAt m.to_bytes 1) = m.stratum := by
    rw [e1]; exact stratum_roundtrip _
  have hr' : parseReferenceIdentifier m.mode (Stratum.fromByte (byteAt m.to_bytes 1))
      (listSlice m.to_bytes 12 4) = .ok m.reference_identifier := by
    rw [hst', NtpMessage.to_bytes_slice12]; exact hridRT
  have ht' : NtpTimestamp.try_from (listSlice m.to_bytes 40 8) = .ok m.transmit_timestamp := by
    rw [NtpMessage.to_bytes_slice40]; exact htsRT
  have href' : parseOptionalTimestamp (listSlice m.to_bytes 16 8) = m.reference_timestamp := by
    rw [NtpMessage.to_bytes_slice16]
    cases hcase : m.reference_timestamp with
    | none => exact parseOptionalTimestamp_zero
    | some ts =>
      rw [hcase] at hrts
      exact parseOptionalTimestamp_to_bytes (listSlice_length (by omega))
        (fun x hx => hb x (listSlice_mem hx)) hrts.symm
  have hor' : parseOptionalTimestamp (listSlice m.to_bytes 24 8) = m.originate_timestamp := by
    rw [NtpMessage.to_bytes_slice24]
    cases hcase : m.originate_timestamp with
    | none => exact parseOptionalTimestamp_zero
    | some ts =>
      rw [hcase] at hots
      exact parseOptionalTimestamp_to_bytes (listSlice_length (by omega))
        (fun x hx => hb x (listSlice_mem hx)) hots.symm
  have hrecv' : parseOptionalTimestamp (listSlice m.to_bytes 32 8) = m.receive_timestamp := by
    rw [NtpMessage.to_bytes_slice32]
    cases hcase : m.receive_timestamp with
    | none => exact parseOptionalTimestamp_zero
    | some ts =>
      rw [hcase] at hrcts
      exact parseOptionalTimestamp_to_bytes (listSlice_length (by omega))
        (fun x hx => hb x (listSlice_mem hx)) hrcts.symm
  have hprec' : i8OfByte (u8OfInt m.precision) = m.precision := by
    have hrange : -128 ≤ m.precision ∧ m.precision < 128 := by
      rw [hprec]; exact i8OfByte_range hb3
    exact i8OfByte_u8OfInt hrange.1 hrange.2
  have hrd' : i32OfU32 (u32OfInt m.root_delay) = m.root_delay := by
    have hrange : -2147483648 ≤ m.root_delay ∧ m.root_delay < 2147483648 := by
      rw [hrd]; exact i32OfU32_range (getU32_lt hb4 hb5 hb6 hb7)
    exact i32OfU32_u32OfInt hrange.1 hrange.2
  have happ := NtpMessage.try_from_eq_ok
    (by rw [ntpMessage_to_bytes_length]; omega) hf' hr' ht'
  rw [happ, hst', e2, e3, hprec', e47, hrd', e811, href', hor', hrecv']

/-! ## Concrete frames used to witness the claims -/

/-- `Except.isOk` written out for the embedded parsers. -/
def exceptIsOk {ε α : Type} : Except ε α → Bool
  | .ok _ => true
  | .error _ => false

/-- A valid 48-byte request frame: flags `0x1C` (li 0, version 3, mode 4 =
Server), stratum 2, reference identifier bytes `[1,2,3,4]`, zero (absent)
reference/originate/receive timestamps, transmit timestamp seconds 1. -/
def frameZ : List Nat :=
  [28, 2, 0, 0, 0, 0, 0, 0, 0, 0, 0, 0, 1, 2, 3, 4] ++
    List.replicate 24 0 ++ [0, 0, 0, 1, 0, 0, 0, 0]

/-- The message `frameZ` decodes to. -/
def msgZ : NtpMessage :=
  { li := .NoWarning, vn := .Three, mode := .Server, stratum := .SecondaryReference,
    poll_interval := 0, precision := 0, root_delay := 0, root_dispersion := 0,
    reference_identifier := some (.UnknownIpVersion 16909060),
    reference_timestamp := none, originate_timestamp := none,
    receive_timestamp := none, transmit_timestamp := ⟨⟨-2208988799, 0⟩⟩ }

/-- Like `frameZ` but with all four timestamp fields all-zero (including the
mandatory transmit timestamp). -/
def frameT0 : List Nat :=
  [28, 2, 0, 0, 0, 0, 0, 0, 0, 0, 0, 0, 1, 2, 3, 4] ++ List.replicate 32 0

/-- Stratum-1 frame whose reference-identifier bytes `FF FF FF FF` are not
valid UTF-8. -/
def frameFF : List Nat :=
  [28, 1, 0, 0, 0, 0, 0, 0, 0, 0, 0, 0, 255, 255, 255, 255] ++
    List.replicate 24 0 ++ [0, 0, 0, 1, 0, 0, 0, 0]

/-- Stratum-1 frame with reference-identifier bytes `"ZZZZ"`. -/
def frameZZZZ : List Nat :=
  [28, 1, 0, 0, 0, 0, 0, 0, 0, 0, 0, 0, 90, 90, 90, 90] ++
    List.replicate 24 0 ++ [0, 0, 0, 1, 0, 0, 0, 0]

/-- The message `frameZZZZ` decodes to. -/
def msgZZZZ : NtpMessage :=
  { li := .NoWarning, vn := .Three, mode := .Server, stratum := .PrimaryReference,
    poll_interval := 0, precision := 0, root_delay := 0, root_dispersion := 0,
    reference_identifier := some (.Primary none),
    reference_timestamp := none, originate_timestamp := none,
    receive_timestamp := none, transmit_timestamp := ⟨⟨-2208988799, 0⟩⟩ }

/-- Stratum-0 frame with reference-identifier bytes `"GPS\0"`. -/
def frameGPS0 : List Nat :=
  [28, 0, 0, 0, 0, 0, 0, 0, 0, 0, 0, 0, 71, 80, 83, 0] ++
    List.replicate 24 0 ++ [0, 0, 0, 1, 0, 0, 0, 0]

/-- 48-byte frame whose flags byte `0x03` carries version bits `000`. -/
def frameV0 : List Nat :=
  [3, 2, 0, 0, 0, 0, 0, 0, 0, 0, 0, 0, 1, 2, 3, 4] ++ List.replicate 32 0

/-! ## Claim theorems -/

/-- **C1.** The claim states that the timestamp decoder converts the 32-bit
wire fraction to nanoseconds by exact fixed-point scaling
`round(fraction * 10^9 / 2^32)` (so that fraction `0x80000000` gives exactly
`500000000` ns).  The code instead pads the fraction's decimal digit count to
9 by a power-of-ten multiply (`pad_int`): decoding the 8 bytes
`00 00 00 01 00 00 00 01` (seconds 1, fraction 1) yields `100000000` ns where
the exact scaling yields `0` ns, and fraction `0x80000000 = 2147483648` is
converted to `214748364` ns, not the `500000000` ns the claim requires. -/
theorem claim_C1_fraction_not_exact_scaling :
    NtpTimestamp.try_from [0, 0, 0, 1, 0, 0, 0, 1] = .ok ⟨⟨-2208988799, 100000000⟩⟩ ∧
    exactFractionToNanos 1 = 0 ∧
    (100000000 : Nat) ≠ exactFractionToNanos 1 ∧
    pad_int 2147483648 9 = 214748364 ∧
    exactFractionToNanos 2147483648 = 500000000 ∧
    NtpTimestamp.try_from [131, 170, 126, 128, 128, 0, 0, 0] = .ok ⟨⟨0, 214748364⟩⟩ := by
  refine ⟨by decide, by decide, by decide, by decide, by decide, by decide⟩

/-- **C2.** The claim states that encoding the instant
`1970-01-01T00:00:00.5Z` (unix seconds 0, 500000000 ns) produces the wire
pair `(2208988800, 0x80000000)` and that decoding those bytes yields the same
instant.  In the code, `to_bytes` writes the nanosecond count itself as the
fraction field (bytes `1D CD 65 00 = 500000000`, not `80 00 00 00`), and
decoding `(2208988800, 0x80000000)` yields the instant with `214748364` ns,
not `.5` s — the round-trip at the half-second boundary fails. -/
theorem claim_C2_half_second_not_roundtrip :
    NtpTimestamp.to_bytes ⟨⟨0, 500000000⟩⟩ = [131, 170, 126, 128, 29, 205, 101, 0] ∧
    NtpTimestamp.to_bytes ⟨⟨0, 500000000⟩⟩ ≠ [131, 170, 126, 128, 128, 0, 0, 0] ∧
    NtpTimestamp.try_from [131, 170, 126, 128, 128, 0, 0, 0] = .ok ⟨⟨0, 214748364⟩⟩ ∧
    (⟨⟨0, 214748364⟩⟩ : NtpTimestamp) ≠ ⟨⟨0, 500000000⟩⟩ := by
  refine ⟨by decide, by decide, by decide, by decide⟩

/-- **C3.** For every frame (of bytes) that decodes successfully, decoding
the encoding of the decoded message gives the same result as the original
decode: `decode (encode (decode bytes)) = decode bytes`. -/
theorem claim_C3_decode_encode_decode {bytes : List Nat} {m : NtpMessage}
    (hb : ∀ x ∈ bytes, x < 256)
    (h : NtpMessage.try_from bytes = .ok m) :
    NtpMessage.try_from (NtpMessage.to_bytes m) = NtpMessage.try_from bytes := by
  rw [h]
  exact ntpMessage_try_from_to_bytes hb h

/-- Witness for **C3** at the concrete frame `frameZ`. -/
theorem claim_C3_decode_encode_decode_witness :
    NtpMessage.try_from (NtpMessage.to_bytes msgZ) = NtpMessage.try_from frameZ :=
  claim_C3_decode_encode_decode (by decide) (by decide)

/-- **C4.** An all-zero 8-byte timestamp field decodes to the `Zero` sentinel
error, hence to `none` for the optional reference/originate/receive fields of
any successfully decoded frame, and a frame whose transmit-timestamp field is
all-zero never decodes successfully; the zero sentinel is never decoded as a
time value. -/
theorem claim_C4_zero_timestamp_sentinel :
    NtpTimestamp.try_from (List.replicate 8 0) = .error .Zero ∧
    parseOptionalTimestamp (List.replicate 8 0) = none ∧
    (∀ (bytes : List Nat) (m : NtpMessage), NtpMessage.try_from bytes = .ok m →
      (listSlice bytes 16 8 = List.replicate 8 0 → m.reference_timestamp = none) ∧
      (listSlice bytes 24 8 = List.replicate 8 0 → m.originate_timestamp = none) ∧
      (listSlice bytes 32 8 = List.replicate 8 0 → m.receive_timestamp = none)) ∧
    (∀ bytes : List Nat, listSlice bytes 40 8 = List.replicate 8 0 →
      ∀ m : NtpMessage, NtpMessage.try_from bytes ≠ .ok m) := by
  refine ⟨by decide, by decide, ?_, ?_⟩
  · intro bytes m h
    obtain ⟨-, -, -, -, -, -, -, -, hrts, hots, hrcts, -⟩ := NtpMessage.try_from_ok h
    refine ⟨fun hz => ?_, fun hz => ?_, fun hz => ?_⟩
    · rw [hrts, hz]; exact parseOptionalTimestamp_zero
    · rw [hots, hz]; exact parseOptionalTimestamp_zero
    · rw [hrcts, hz]; exact parseOptionalTimestamp_zero
  · intro bytes hz m h
    obtain ⟨-, -, -, -, -, -, -, -, -, -, -, htts⟩ := NtpMessage.try_from_ok h
    rw [hz] at htts
    have hzero : NtpTimestamp.try_from (List.replicate 8 0) = .error .Zero := by decide
    rw [hzero] at htts
    exact absurd htts (by simp)

/-- Witness for **C4**: at `frameZ` the zero reference-timestamp field decodes
to `none`, and `frameT0` (all-zero transmit field) does not decode to `msgZ`
(nor to any message). -/
theorem claim_C4_zero_timestamp_sentinel_witness :
    msgZ.reference_timestamp = none ∧ NtpMessage.try_from frameT0 ≠ .ok msgZ :=
  ⟨(claim_C4_zero_timestamp_sentinel.2.2.1 frameZ msgZ (by decide)).1 (by decide),
   claim_C4_zero_timestamp_sentinel.2.2.2 frameT0 (by decide) msgZ⟩

/-- **C5 (counterexample).** The claim asserts that for stratum byte 1 and a
non-Client mode, unmatched reference-identifier bytes never abort decoding,
*for any 4 byte values*.  The frame `frameFF` (stratum 1, mode Server,
reference bytes `FF FF FF FF`) aborts the whole decode with the propagated
`str::from_utf8` error instead of degrading to `Primary(None)`. -/
theorem claim_C5_counterexample :
    NtpMessage.try_from frameFF = .error .invalidUtf8 := by decide

/-- **C5 (amended).** For stratum byte 1 and mode other than Client, if the 4
reference-identifier bytes form *valid UTF-8* and do not match the
primary-source vocabulary, the reference-identifier parse succeeds with
`Primary(None)` (and a full frame such as `frameZZZZ` decodes successfully);
bytes that are not valid UTF-8 abort the decode with a UTF-8 error. -/
theorem claim_C5_amended_soft_degrade :
    (∀ (mode : Mode) (b s : List Nat), mode ≠ .Client →
      utf8Decode b = some s → ExternalReferenceSource.fromStr s = none →
      parseReferenceIdentifier mode .PrimaryReference b = .ok (some (.Primary none))) ∧
    (∀ (mode : Mode) (b : List Nat), mode ≠ .Client → utf8Decode b = none →
      parseReferenceIdentifier mode .PrimaryReference b = .error .invalidUtf8) ∧
    NtpMessage.try_from frameZZZZ = .ok msgZZZZ := by
  refine ⟨?_, ?_, by decide⟩
  · intro mode b s hmode hu hfs
    simp only [parseReferenceIdentifier, if_neg hmode, hu, hfs]
  · intro mode b hmode hu
    simp only [parseReferenceIdentifier, if_neg hmode, hu]

/-- Witness for the amended **C5** at mode Server with bytes `"ZZZZ"` (valid
UTF-8, unmatched) and `FF FF FF FF` (invalid UTF-8). -/
theorem claim_C5_amended_soft_degrade_witness :
    parseReferenceIdentifier .Server .PrimaryReference [90, 90, 90, 90] =
      .ok (some (.Primary none)) ∧
    parseReferenceIdentifier .Server .PrimaryReference [255, 255, 255, 255] =
      .error .invalidUtf8 :=
  ⟨claim_C5_amended_soft_degrade.1 .Server [90, 90, 90, 90] [90, 90, 90, 90]
      (by decide) (by decide) (by decide),
   claim_C5_amended_soft_degrade.2.1 .Server [255, 255, 255, 255]
      (by decide) (by decide)⟩

/-- **C6.** For stratum byte 0 and mode other than Client, the 4
reference-identifier bytes must match the Kiss-of-Death vocabulary or the
whole decode fails; `"GPS\0"` fails at stratum 0 (the `frameGPS0` decode
aborts with the Kiss-of-Death error) even though `"GPS"` is a valid primary
source — the vocabulary is selected by stratum. -/
theorem claim_C6_kod_vocabulary_by_stratum :
    (∀ (mode : Mode) (b s : List Nat), mode ≠ .Client →
      utf8Decode b = some s → KissODeathIdentifier.fromStr s = none →
      parseReferenceIdentifier mode .KissODeathMessage b =
        .error .invalidKissODeathIdentifier) ∧
    (∀ (mode : Mode) (b : List Nat), mode ≠ .Client → utf8Decode b = none →
      parseReferenceIdentifier mode .KissODeathMessage b = .error .invalidUtf8) ∧
    NtpMessage.try_from frameGPS0 = .error .invalidKissODeathIdentifier ∧
    ExternalReferenceSource.fromStr (ascii ("GPS")) = some .GPS := by
  refine ⟨?_, ?_, by decide, by decide⟩
  · intro mode b s hmode hu hfs
    simp only [parseReferenceIdentifier, if_neg hmode, hu, hfs]
  · intro mode b hmode hu
    simp only [parseReferenceIdentifier, if_neg hmode, hu]

/-- Witness for **C6** at mode Server with bytes `"GPS\0"`. -/
theorem claim_C6_kod_vocabulary_by_stratum_witness :
    parseReferenceIdentifier .Server .KissODeathMessage [71, 80, 83, 0] =
      .error .invalidKissODeathIdentifier :=
  claim_C6_kod_vocabulary_by_stratum.1 .Server [71, 80, 83, 0] [71, 80, 83, 0]
    (by decide) (by decide) (by decide)

/-- **C7.** The flags byte splits as li = bits 7–6, version = bits 5–3, mode =
bits 2–0: version bit patterns 0, 5, 6, 7 make the whole decode fail with the
invalid-version error regardless of the other bits; the flags parse succeeds
exactly when the version bits are valid (so all li values 0–3 and all mode
values 0–7 map to variants); flags byte `0b11100101 = 229` decodes to
(AlarmConditionClockNotSynchronised, Four, Broadcast). -/
theorem claim_C7_flags_bit_split :
    (∀ bytes : List Nat, ¬ bytes.length < 48 → byteAt bytes 0 < 256 →
      (byteAt bytes 0 / 8 % 8 = 0 ∨ 5 ≤ byteAt bytes 0 / 8 % 8) →
      NtpMessage.try_from bytes = .error .invalidVersionNumber) ∧
    (∀ f : Nat, f < 256 →
      (exceptIsOk (parseFlags f) = true ↔ ¬(f / 8 % 8 = 0 ∨ 5 ≤ f / 8 % 8))) ∧
    (∀ n : Nat, n < 4 → (LeapIndicator.fromRepr n).isSome = true) ∧
    (∀ n : Nat, n < 8 → (Mode.fromRepr n).isSome = true) ∧
    parseFlags 229 = .ok (.AlarmConditionClockNotSynchronised, .Four, .Broadcast) := by
  refine ⟨?_, by decide, by decide, by decide, by decide⟩
  intro bytes hlen hb0 hv
  have hall : ∀ f : Nat, f < 256 → (f / 8 % 8 = 0 ∨ 5 ≤ f / 8 % 8) →
      parseFlags f = .error .invalidVersionNumber := by decide
  have hfl := hall _ hb0 hv
  simp only [NtpMessage.try_from, if_neg hlen, hfl]

/-- Witness for **C7**: `frameV0` (version bits `000`) fails with the
invalid-version error, the flags parse succeeds at byte 28 (version 3), and
`LeapIndicator`/`Mode` accept 3 and 7. -/
theorem claim_C7_flags_bit_split_witness :
    NtpMessage.try_from frameV0 = .error .invalidVersionNumber ∧
    exceptIsOk (parseFlags 28) = true ∧
    (LeapIndicator.fromRepr 3).isSome = true ∧
    (Mode.fromRepr 7).isSome = true :=
  ⟨claim_C7_flags_bit_split.1 frameV0 (by decide) (by decide) (by decide),
   (claim_C7_flags_bit_split.2.1 28 (by decide)).mpr (by decide),
   claim_C7_flags_bit_split.2.2.1 3 (by decide),
   claim_C7_flags_bit_split.2.2.2.1 7 (by decide)⟩

/-- **C8.** Every buffer shorter than 48 bytes is rejected with the length
error before any field is read; no message is returned. -/
theorem claim_C8_short_buffer_length_error :
    ∀ bytes : List Nat, bytes.length < 48 →
      NtpMessage.try_from bytes = .error .packetTooSmall := by
  intro bytes h
  simp only [NtpMessage.try_from, if_pos h]

/-- Witness for **C8** at the empty buffer. -/
theorem claim_C8_short_buffer_length_error_witness :
    NtpMessage.try_from [] = .error .packetTooSmall :=
  claim_C8_short_buffer_length_error [] (by decide)

/-- **C9.** `new_server_response` always produces a message in Server mode,
whatever the response data contains, and its transmit timestamp is the
supplied one when present and otherwise the clock-source instant (`now`)
supplied at build time. -/
theorem claim_C9_build_response_server_mode :
    ∀ (now : NtpTimestamp) (res : NtpServerResponse),
      (NtpMessage.new_server_response now res).mode = .Server ∧
      (NtpMessage.new_server_response now res).transmit_timestamp =
        res.transmit_timestamp.getD now := by
  intro now res
  refine ⟨rfl, ?_⟩
  cases h : res.transmit_timestamp with
  | none => simp only [NtpMessage.new_server_response, h, Option.getD]
  | some ts => simp only [NtpMessage.new_server_response, h, Option.getD]

/-- **C10.** Decode returns `Primary(Some(source))` only for primary-source
names of exactly 4 characters: encoding a `Primary(Some(s))` whose name is
shorter than 4 characters zero-pads the name to 4 bytes, and decoding those
bytes (same stratum, non-Client mode) yields `Primary(None)`, not
`Primary(Some(s))`. -/
theorem claim_C10_short_primary_names_lost :
    (∀ (r : ExternalReferenceSource) (mode : Mode), mode ≠ .Client →
      r.asRefStr.length < 4 →
      parseReferenceIdentifier mode .PrimaryReference
        (ridBytes (some (.Primary (some r)))) = .ok (some (.Primary none))) ∧
    (∀ (b : List Nat) (r : ExternalReferenceSource) (mode : Mode), b.length = 4 →
      mode ≠ .Client →
      parseReferenceIdentifier mode .PrimaryReference b = .ok (some (.Primary (some r))) →
      r.asRefStr.length = 4) := by
  constructor
  · intro r mode hmode hshort
    simp only [parseReferenceIdentifier, if_neg hmode]
    cases r <;> first
      | (exact absurd hshort (by decide))
      | decide
  · intro b r mode hlen hmode h
    simp only [parseReferenceIdentifier, if_neg hmode] at h
    split at h
    · exact absurd h (by simp)
    · rename_i s hu
      simp only [Except.ok.injEq, Option.some.injEq,
        ReferenceIdentifier.Primary.injEq] at h
      have hsr := externalReferenceSource_fromStr_some h
      subst hsr
      have henc := utf8Decode_encode hu
      have hlen4 : (utf8Encode r.asRefStr).length = 4 := by rw [henc]; exact hlen
      cases r <;> first
        | rfl
        | (exact absurd hlen4 (by decide))

/-- Witness for **C10**: encode-then-decode of `Primary(Some(GPS))` (a
3-character name) gives `Primary(None)`, and the bytes `"LOCL"` decode to
`Primary(Some(LOCL))` whose name has exactly 4 characters. -/
theorem claim_C10_short_primary_names_lost_witness :
    parseReferenceIdentifier .Server .PrimaryReference
      (ridBytes (some (.Primary (some .GPS)))) = .ok (some (.Primary none)) ∧
    (ExternalReferenceSource.asRefStr .LOCL).length = 4 :=
  ⟨claim_C10_short_primary_names_lost.1 .GPS .Server (by decide) (by decide),
   claim_C10_short_primary_names_lost.2 (ascii ("LOCL")) .LOCL .Server
     (by decide) (by decide) (by decide)⟩

end SNTP
